import Mathlib

/-!
Shallow embedding of `Services/mvpgpt/app/main.py`: a FastAPI chat relay
that persists messages to an external worker (the history store), streams
generated replies to connected WebSocket viewers, and replays stored
history to newly connected viewers.  Python dicts become association
lists, JSON payloads become an inductive `Json` type, and the effectful
endpoints become pure functions that return the log of actions (broadcast
events and history-store appends) they perform.  A Python function that
can raise an uncaught exception is embedded as an `Option`-valued
function, `none` meaning the exception escapes with no further actions.
-/

namespace Mvpgpt

/-- JSON values as delivered by the history worker and as sent over the
live channel.  `obj` keeps fields as an association list in insertion
order, mirroring a Python `dict`. -/
inductive Json where
  | null
  | bool (b : Bool)
  | num (n : Int)
  | str (s : String)
  | arr (elems : List Json)
  | obj (fields : List (String × Json))

/-- Python `d.get(key)`: the value stored under `key`, if any. -/
def dictGet : List (String × Json) → String → Option Json
  | [], _ => none
  | (k, v) :: rest, key => if k = key then some v else dictGet rest key

/-- Python `d.get(key, default)`. -/
def dictGetD (fields : List (String × Json)) (key : String) (d : Json) : Json :=
  (dictGet fields key).getD d

/-- The wire events the server sends to viewers (`json.dumps` payloads):
`userMsg` is `{"role": "user", "content": c}`, `fragment` is
`{"role": "assistant", "chunk": t, "type": "stream"}`, `streamEnd` is
`{"type": "stream_end"}`, `clear` is `{"type": "clear"}`, and `full` is
the replay payload `{"role": r, "content": c, "type": "full"}` whose
`role`/`content` are arbitrary JSON values (possibly `null`). -/
inductive Event where
  | userMsg (content : Json)
  | fragment (chunk : String)
  | streamEnd
  | clear
  | full (role : Json) (content : Json)

/-- An observable side effect of a handler: a `manager.broadcast` call,
or a `save_message` POST to the history store. -/
inductive Action where
  | broadcastEv (e : Event)
  | save (role : String) (content : Json)

/-- One WebSocket connection in `manager.active_connections`.  `failing`
records whether `send_text` on it raises (the viewer is gone). -/
structure Conn where
  id : Nat
  failing : Bool
deriving DecidableEq

namespace ConnectionManager

/-- The `for connection in self.active_connections[:]` loop of
`ConnectionManager.broadcast`: each send is tried in order; a raising
send is swallowed by `except: pass` and the loop continues.  Returns the
deliveries actually made, as (connection id, event) pairs in loop
order. -/
def broadcastLoop : List Conn → Event → List (Nat × Event)
  | [], _ => []
  | c :: rest, e =>
    if c.failing then broadcastLoop rest e
    else (c.id, e) :: broadcastLoop rest e

/-- `ConnectionManager.broadcast`: deliveries made, paired with the
registry after the call.  The method never mutates
`active_connections`, so the registry is returned unchanged. -/
def broadcast (conns : List Conn) (e : Event) : List (Nat × Event) × List Conn :=
  (broadcastLoop conns e, conns)

/-- Python `list.remove` (first occurrence), keyed by connection id. -/
def removeFirst : List Conn → Nat → List Conn
  | [], _ => []
  | c :: rest, cid => if c.id = cid then rest else c :: removeFirst rest cid

/-- `ConnectionManager.disconnect`: remove the websocket from the
registry if present (Python removes the first occurrence). -/
def disconnect (conns : List Conn) (cid : Nat) : List Conn :=
  removeFirst conns cid

end ConnectionManager

/-- The events a given connection id receives when each event of `evs`
is broadcast in turn over the fixed registry `conns`: those broadcasts
whose delivery loop reaches that connection. -/
def receivedBy (conns : List Conn) (evs : List Event) (cid : Nat) : List Event :=
  evs.filter (fun e => (ConnectionManager.broadcastLoop conns e).any (fun p => p.1 == cid))

/-- Body of a worker response: `invalid` when `resp.json()` raises
(empty or malformed body), `json v` when it parses to `v`. -/
inductive BodyResult where
  | invalid
  | json (v : Json)

/-- Outcome of one HTTP GET against the history worker: the request
raised (transport error / timeout), or it returned a status code and a
body. -/
inductive FetchResult where
  | transportError
  | status (code : Nat) (body : BodyResult)

/-- `parse_worker_history`: a list is returned as is; a dict yields
`data.get("history", [])` (whatever value that is); anything else
yields `[]`. -/
def parse_worker_history (data : Json) : Json :=
  match data with
  | Json.arr xs => Json.arr xs
  | Json.obj fields => dictGetD fields "history" (Json.arr [])
  | _ => Json.arr []

/-- Step 1 of `generate_ai_response` (the history fetch): `raw_history`
starts `[]`; on a 200 response `resp.json()` is parsed with
`parse_worker_history`, a `JSONDecodeError` resets to `[]`; a non-200
status or a raised GET leaves `[]`.  No exception escapes this step. -/
def fetchRawHistory : FetchResult → Json
  | FetchResult.transportError => Json.arr []
  | FetchResult.status code body =>
    if code = 200 then
      match body with
      | BodyResult.invalid => Json.arr []
      | BodyResult.json v => parse_worker_history v
    else Json.arr []

/-- Python `for msg in raw_history`: a list yields its elements, a
string yields its characters as 1-character strings, a dict yields its
keys; `null`, booleans and numbers are not iterable (`TypeError`). -/
def iterRecords : Json → Option (List Json)
  | Json.arr xs => some xs
  | Json.str s => some (s.toList.map (fun c => Json.str (String.mk [c])))
  | Json.obj fields => some (fields.map (fun kv => Json.str kv.1))
  | _ => none

/-- Whether a JSON value is a Python dict (`isinstance(msg, dict)`). -/
def isDict : Json → Bool
  | Json.obj _ => true
  | _ => false

/-- Whether a JSON value is a scalar (not a list and not a dict). -/
def isScalar : Json → Bool
  | Json.arr _ => false
  | Json.obj _ => false
  | _ => true

/-- The two-value role vocabulary of the generation backend
(`types.Content(role=...)` accepts `"user"` and `"model"`). -/
inductive GRole where
  | user
  | model
deriving DecidableEq

/-- One `types.Content` turn handed to the backend: a role and the
`Part.from_text` payload. -/
structure GContent where
  role : GRole
  text : Json

/-- Step 2 of `generate_ai_response`, per record: `role = "model" if
msg.get("role") in ["assistant", "model"] else "user"` and
`msg.get("content", "")`. -/
def recordContent (fields : List (String × Json)) : GContent :=
  { role :=
      match dictGet fields "role" with
      | some (Json.str s) =>
        if s = "assistant" ∨ s = "model" then GRole.model else GRole.user
      | _ => GRole.user
    text := dictGetD fields "content" (Json.str "") }

/-- Whether `types.Part.from_text(text=v)` accepts the value: `Part` is
a pydantic model whose `text` field is `Optional[str]`, and pydantic v2
does not coerce numbers, booleans or containers to `str`, so any value
other than a string or `None` raises `ValidationError` at
construction. -/
def isPartText : Json → Bool
  | Json.str _ => true
  | Json.null => true
  | _ => false

/-- The `for msg in raw_history` loop of step 2: each record must be a
dict (`msg.get` on anything else raises `AttributeError`), and its
content value — after the `""` default for a missing key — must pass
`Part.from_text`'s validation.  Both exceptions are raised outside any
`try`, so the whole call dies — `none`. -/
def contentsOfRecords : List Json → Option (List GContent)
  | [] => some []
  | Json.obj fields :: rest =>
    if isPartText (dictGetD fields "content" (Json.str "")) then
      match contentsOfRecords rest with
      | some cs => some (recordContent fields :: cs)
      | none => none
    else none
  | _ :: _ => none

/-- Outcome of `client.models.generate_content_stream` plus iteration:
either the stream yields `chunks` (each chunk's `.text`, possibly
`None`) and completes, or it raises with message `emsg` after yielding
`chunks`.  A failure of the initial call is `err [] emsg`. -/
inductive StreamOutcome where
  | ok (chunks : List (Option String))
  | err (chunks : List (Option String)) (emsg : String)

/-- The chunk text broadcast on the error path:
`f" [{err_msg}]"` with `err_msg = f"Error generating response: {str(e)}"`. -/
def errorChunk (emsg : String) : String :=
  " [Error generating response: " ++ emsg ++ "]"

/-- The `for chunk in response_stream` loop of step 3: `if chunk.text:`
skips `None` and empty chunks; otherwise the text is appended to
`full_response` and broadcast as a fragment.  Returns the final
accumulator and the fragment events in emission order. -/
def streamStep (acc : String) : List (Option String) → String × List Event
  | [] => (acc, [])
  | none :: rest => streamStep acc rest
  | some t :: rest =>
    if t = "" then streamStep acc rest
    else
      let r := streamStep (acc ++ t) rest
      (r.1, Event.fragment t :: r.2)

/-- Step 3 of `generate_ai_response` as an action log.  On completion:
fragments, then `save_message("assistant", full_response)` (which never
raises — it swallows its own exceptions), then the `stream_end`
broadcast.  On a raise: fragments already emitted, then the error
fragment, then `stream_end`; no save. -/
def streamActions : StreamOutcome → List Action
  | StreamOutcome.ok chunks =>
    let r := streamStep "" chunks
    r.2.map Action.broadcastEv
      ++ [Action.save "assistant" (Json.str r.1), Action.broadcastEv Event.streamEnd]
  | StreamOutcome.err chunks emsg =>
    let r := streamStep "" chunks
    r.2.map Action.broadcastEv
      ++ [Action.broadcastEv (Event.fragment (errorChunk emsg)),
          Action.broadcastEv Event.streamEnd]

/-- `generate_ai_response(user_content)` given the history-fetch outcome
and the backend stream outcome.  Returns the assembled `gemini_contents`
and the action log, or `none` when step 2 raises — non-iterable
`raw_history`, a record without `.get`, or a content value (a record's
or the submitted one) that `Part.from_text` rejects; all of these occur
before the streaming `try`, so nothing was broadcast or saved. -/
def generate_ai_response (fetch : FetchResult) (user_content : Json)
    (st : StreamOutcome) : Option (List GContent × List Action) :=
  match iterRecords (fetchRawHistory fetch) with
  | none => none
  | some records =>
    match contentsOfRecords records with
    | none => none
    | some cs =>
      if isPartText user_content then
        some (cs ++ [{ role := GRole.user, text := user_content }], streamActions st)
      else none

/-- The actions `generate_ai_response` actually performs: none at all
when it raises during context assembly. -/
def genActions (fetch : FetchResult) (user_content : Json)
    (st : StreamOutcome) : List Action :=
  match generate_ai_response fetch user_content st with
  | some (_, acts) => acts
  | none => []

/-- `chat_endpoint`: `user_content = payload.get("content", "")`; the
user-message broadcast happens in the handler; the background tasks run
after the response in the order added — `save_message("user", ...)`
then `generate_ai_response(...)`.  The returned list is the actions in
execution order. -/
def chat_endpoint (payload : List (String × Json)) (fetch : FetchResult)
    (st : StreamOutcome) : List Action :=
  let user_content := dictGetD payload "content" (Json.str "")
  Action.broadcastEv (Event.userMsg user_content)
    :: Action.save "user" user_content
    :: genActions fetch user_content st

/-- Modelled from the spec (the worker service itself is not in this
repository): the external history store holds an ordered list of
records; DELETE empties it, and GET returns the stored records as a
bare JSON array with status 200. -/
def storeResponse (store : List Json) : FetchResult :=
  FetchResult.status 200 (BodyResult.json (Json.arr store))

/-- `reset_history`: DELETE the worker's list, then broadcast
`{"type": "clear"}`; if the DELETE raises, the `except` swallows it and
the broadcast is skipped.  `deleteOk` is whether the DELETE succeeded.
Returns the store contents after the call and the events broadcast. -/
def reset_history (store : List Json) (deleteOk : Bool) : List Json × List Event :=
  if deleteOk then ([], [Event.clear]) else (store, [])

/-- The history-replay loop of `websocket_endpoint`: each dict record is
sent to the new viewer as `{"role": msg.get("role"), "content":
msg.get("content"), "type": "full"}` (no defaults — a missing field is
sent as JSON `null`); a non-dict record fails the `isinstance(msg,
dict)` check and is skipped. -/
def replayEvents : List Json → List Event
  | [] => []
  | Json.obj fields :: rest =>
    Event.full (dictGetD fields "role" Json.null) (dictGetD fields "content" Json.null)
      :: replayEvents rest
  | _ :: rest => replayEvents rest

/-- The history-sync block of `websocket_endpoint`: on a 200 response
with a non-empty body that parses, the parsed history is replayed; an
empty body fails `resp.text.strip()`, and every exception (malformed
JSON, iterating a non-iterable history value) is caught by the
surrounding `try`, ending replay with what was sent so far. -/
def wsHistoryEvents : FetchResult → List Event
  | FetchResult.transportError => []
  | FetchResult.status code body =>
    if code = 200 then
      match body with
      | BodyResult.invalid => []
      | BodyResult.json v =>
        match iterRecords (parse_worker_history v) with
        | some records => replayEvents records
        | none => []
    else []

/-- Result of one full `websocket_endpoint` lifetime: the events sent to
this viewer alone, the events broadcast to everyone (the handler never
calls `manager.broadcast`), and the registry after disconnect. -/
structure WsResult where
  sentToViewer : List Event
  broadcasts : List Event
  registryAfter : List Conn

/-- `websocket_endpoint` over one connection lifetime: `connect` appends
the viewer to the registry, history is replayed to that socket only,
then `receive_text` is looped — every inbound text (`inbound`) is
discarded — until `WebSocketDisconnect`, whereupon
`manager.disconnect` removes the viewer. -/
def websocket_endpoint (registry : List Conn) (viewer : Conn)
    (fetch : FetchResult) (inbound : List String) : WsResult :=
  let reg1 := registry ++ [viewer]
  { sentToViewer := wsHistoryEvents fetch
    broadcasts := []
    registryAfter := ConnectionManager.disconnect reg1 viewer.id }

/-- The broadcast events of an action log, in order. -/
def broadcastEvents : List Action → List Event
  | [] => []
  | Action.broadcastEv e :: rest => e :: broadcastEvents rest
  | _ :: rest => broadcastEvents rest

/-- The history-store appends of an action log, in order. -/
def savesOf : List Action → List (String × Json)
  | [] => []
  | Action.save r c :: rest => (r, c) :: savesOf rest
  | _ :: rest => savesOf rest

/-- Whether an event is the `stream_end` signal. -/
def isStreamEnd : Event → Bool
  | Event.streamEnd => true
  | _ => false

/-- The chunk texts the streaming loop keeps: present and non-empty. -/
def keptTexts : List (Option String) → List String
  | [] => []
  | none :: rest => keptTexts rest
  | some t :: rest => if t = "" then keptTexts rest else t :: keptTexts rest

/-- Concatenation of a list of strings, in order. -/
def concatStr : List String → String
  | [] => ""
  | s :: rest => s ++ concatStr rest

/-- The `full`-type replay event for a dict record (used to state what a
connecting viewer receives; only applied to dict records). -/
def asFullEvent : Json → Event
  | Json.obj fields =>
    Event.full (dictGetD fields "role" Json.null) (dictGetD fields "content" Json.null)
  | _ => Event.full Json.null Json.null

/-! ## Auxiliary lemmas -/

theorem streamStep_eq (chunks : List (Option String)) :
    ∀ acc, streamStep acc chunks
      = (acc ++ concatStr (keptTexts chunks), (keptTexts chunks).map Event.fragment) := by
  induction chunks with
  | nil => intro acc; simp [streamStep, keptTexts, concatStr]
  | cons c rest ih =>
    intro acc
    cases c with
    | none => simpa [streamStep, keptTexts] using ih acc
    | some t =>
      by_cases ht : t = ""
      · simp only [streamStep, keptTexts, ht, if_pos]
        simpa using ih acc
      · simp only [streamStep, keptTexts, ht, if_neg, not_false_iff]
        rw [ih (acc ++ t)]
        simp [concatStr, String.append_assoc]

theorem keptTexts_map_some (frags : List String) (h : ∀ f ∈ frags, f ≠ "") :
    keptTexts (frags.map some) = frags := by
  induction frags with
  | nil => rfl
  | cons f rest ih =>
    have hf : f ≠ "" := h f (List.mem_cons_self f rest)
    simp only [List.map_cons, keptTexts, hf, if_neg, not_false_iff]
    rw [ih (fun g hg => h g (List.mem_cons_of_mem f hg))]

theorem errorChunk_ne_empty (emsg : String) : errorChunk emsg ≠ "" := by
  intro h
  have h2 : (errorChunk emsg).data = "".data := congrArg String.data h
  have h3 : ∀ x y : String, (x ++ y).data = x.data ++ y.data := fun _ _ => rfl
  simp only [errorChunk, h3] at h2
  simp at h2

theorem broadcastEvents_append (a b : List Action) :
    broadcastEvents (a ++ b) = broadcastEvents a ++ broadcastEvents b := by
  induction a with
  | nil => rfl
  | cons x rest ih => cases x <;> simp [broadcastEvents, ih]

theorem broadcastEvents_map (l : List Event) :
    broadcastEvents (l.map Action.broadcastEv) = l := by
  induction l with
  | nil => rfl
  | cons e rest ih => simp [broadcastEvents, ih]

theorem savesOf_append (a b : List Action) :
    savesOf (a ++ b) = savesOf a ++ savesOf b := by
  induction a with
  | nil => rfl
  | cons x rest ih => cases x <;> simp [savesOf, ih]

theorem savesOf_map (l : List Event) :
    savesOf (l.map Action.broadcastEv) = [] := by
  induction l with
  | nil => rfl
  | cons e rest ih => simp [savesOf, ih]

theorem broadcastEvents_map_comp {α : Type} (f : α → Event) (l : List α) :
    broadcastEvents (l.map (Action.broadcastEv ∘ f)) = l.map f := by
  induction l with
  | nil => rfl
  | cons a rest ih => simp [broadcastEvents, ih]

theorem savesOf_map_comp {α : Type} (f : α → Event) (l : List α) :
    savesOf (l.map (Action.broadcastEv ∘ f)) = [] := by
  induction l with
  | nil => rfl
  | cons a rest ih => simp [savesOf, ih]

theorem broadcastEvents_streamActions_ok (chunks : List (Option String)) :
    broadcastEvents (streamActions (StreamOutcome.ok chunks))
      = (keptTexts chunks).map Event.fragment ++ [Event.streamEnd] := by
  simp [streamActions, streamStep_eq, broadcastEvents_append, broadcastEvents_map,
    broadcastEvents_map_comp, broadcastEvents]

theorem broadcastEvents_streamActions_err (chunks : List (Option String)) (emsg : String) :
    broadcastEvents (streamActions (StreamOutcome.err chunks emsg))
      = (keptTexts chunks).map Event.fragment
        ++ [Event.fragment (errorChunk emsg), Event.streamEnd] := by
  simp [streamActions, streamStep_eq, broadcastEvents_append, broadcastEvents_map,
    broadcastEvents_map_comp, broadcastEvents]

theorem savesOf_streamActions_ok (chunks : List (Option String)) :
    savesOf (streamActions (StreamOutcome.ok chunks))
      = [("assistant", Json.str (concatStr (keptTexts chunks)))] := by
  have h : ("" : String) ++ concatStr (keptTexts chunks) = concatStr (keptTexts chunks) := by
    simp
  simp [streamActions, streamStep_eq, savesOf_append, savesOf_map, savesOf_map_comp,
    savesOf, h]

theorem savesOf_streamActions_err (chunks : List (Option String)) (emsg : String) :
    savesOf (streamActions (StreamOutcome.err chunks emsg)) = [] := by
  simp [streamActions, streamStep_eq, savesOf_append, savesOf_map, savesOf_map_comp,
    savesOf]

theorem generate_some_parts (fetch : FetchResult) (uc : Json) (st : StreamOutcome)
    (cs : List GContent) (acts : List Action)
    (h : generate_ai_response fetch uc st = some (cs, acts)) :
    acts = streamActions st
      ∧ ∃ cs0, cs = cs0 ++ [{ role := GRole.user, text := uc }] := by
  cases h1 : iterRecords (fetchRawHistory fetch) with
  | none => simp [generate_ai_response, h1] at h
  | some records =>
    cases h2 : contentsOfRecords records with
    | none => simp [generate_ai_response, h1, h2] at h
    | some cs0 =>
      by_cases h3 : isPartText uc = true
      · simp only [generate_ai_response, h1, h2, h3, if_true, Option.some_inj,
          Prod.mk.injEq] at h
        exact ⟨h.2.symm, cs0, h.1.symm⟩
      · simp [generate_ai_response, h1, h2, h3] at h

theorem no_streamEnd_in_fragments (F : List String) :
    (F.map Event.fragment).filter isStreamEnd = [] := by
  induction F with
  | nil => rfl
  | cons f rest ih => simp [isStreamEnd, List.filter_cons, ih]

theorem broadcastLoop_any_of_mem (conns : List Conn) (e : Event) (c : Conn)
    (hc : c ∈ conns) (hf : c.failing = false) :
    (ConnectionManager.broadcastLoop conns e).any (fun p => p.1 == c.id) = true := by
  induction conns with
  | nil => cases hc
  | cons d rest ih =>
    rcases List.mem_cons.mp hc with h | h
    · subst h
      simp [ConnectionManager.broadcastLoop, hf]
    · by_cases hd : d.failing
      · simpa [ConnectionManager.broadcastLoop, hd] using ih h
      · simp [ConnectionManager.broadcastLoop, hd, ih h]

theorem broadcastLoop_mem (conns : List Conn) (e : Event) (c : Conn)
    (hc : c ∈ conns) (hf : c.failing = false) :
    (c.id, e) ∈ ConnectionManager.broadcastLoop conns e := by
  induction conns with
  | nil => cases hc
  | cons d rest ih =>
    rcases List.mem_cons.mp hc with h | h
    · subst h
      simp [ConnectionManager.broadcastLoop, hf]
    · by_cases hd : d.failing
      · simpa [ConnectionManager.broadcastLoop, hd] using ih h
      · simp [ConnectionManager.broadcastLoop, hd]
        exact Or.inr (ih h)

theorem receivedBy_of_mem (conns : List Conn) (evs : List Event) (c : Conn)
    (hc : c ∈ conns) (hf : c.failing = false) :
    receivedBy conns evs c.id = evs := by
  unfold receivedBy
  exact List.filter_eq_self.mpr
    (fun e _ => broadcastLoop_any_of_mem conns e c hc hf)

theorem removeFirst_append_of_fresh (conns : List Conn) (w : Conn)
    (h : ∀ d ∈ conns, d.id ≠ w.id) :
    ConnectionManager.removeFirst (conns ++ [w]) w.id = conns := by
  induction conns with
  | nil => simp [ConnectionManager.removeFirst]
  | cons d rest ih =>
    have hd : d.id ≠ w.id := h d (List.mem_cons_self d rest)
    have hrest := ih (fun x hx => h x (List.mem_cons_of_mem d hx))
    simp [List.cons_append, ConnectionManager.removeFirst, hd, hrest]

theorem replayEvents_eq_map (records : List Json)
    (h : ∀ r ∈ records, isDict r = true) :
    replayEvents records = records.map asFullEvent := by
  induction records with
  | nil => rfl
  | cons r rest ih =>
    have hr : isDict r = true := h r (List.mem_cons_self r rest)
    have hrest := ih (fun x hx => h x (List.mem_cons_of_mem r hx))
    cases r with
    | obj fields => simp [replayEvents, asFullEvent, hrest]
    | null => simp [isDict] at hr
    | bool b => simp [isDict] at hr
    | num n => simp [isDict] at hr
    | str s => simp [isDict] at hr
    | arr xs => simp [isDict] at hr

/-! ## Claim theorems -/

/-- C1 (amended): for every invocation of `generate_ai_response` whose
context assembly succeeds — the fetched history yields only dict
records, every content value (after the `""` default) and the submitted
content pass `Part.from_text`'s validation, so step 2 does not raise —
the broadcast sequence is non-empty, ends with `stream_end`, and
contains exactly one `stream_end`; when the backend stream raises,
nothing is persisted and the sequence is the already-emitted fragments,
then one error fragment carrying the human-readable error string, then
`stream_end`. -/
theorem generate_always_terminates_stream (fetch : FetchResult) (uc : Json)
    (st : StreamOutcome) (cs : List GContent) (acts : List Action)
    (chunks : List (Option String)) (emsg : String)
    (h : generate_ai_response fetch uc st = some (cs, acts)) :
    broadcastEvents acts ≠ []
    ∧ (broadcastEvents acts).getLast? = some Event.streamEnd
    ∧ ((broadcastEvents acts).filter isStreamEnd).length = 1
    ∧ (st = StreamOutcome.err chunks emsg →
        savesOf acts = []
        ∧ broadcastEvents acts
            = (keptTexts chunks).map Event.fragment
              ++ [Event.fragment (errorChunk emsg), Event.streamEnd]) := by
  obtain ⟨hacts, -⟩ := generate_some_parts fetch uc st cs acts h
  subst hacts
  cases st with
  | ok ch =>
    refine ⟨?_, ?_, ?_, ?_⟩
    · simp [broadcastEvents_streamActions_ok]
    · rw [broadcastEvents_streamActions_ok]
      exact List.getLast?_concat _
    · rw [broadcastEvents_streamActions_ok]
      simp [List.filter_append, no_streamEnd_in_fragments, List.filter_cons, isStreamEnd]
    · intro hcontra
      exact StreamOutcome.noConfusion hcontra
  | err ch em =>
    refine ⟨?_, ?_, ?_, ?_⟩
    · simp [broadcastEvents_streamActions_err]
    · rw [broadcastEvents_streamActions_err]
      have hsplit :
          (keptTexts ch).map Event.fragment
              ++ [Event.fragment (errorChunk em), Event.streamEnd]
            = ((keptTexts ch).map Event.fragment ++ [Event.fragment (errorChunk em)])
              ++ [Event.streamEnd] := by simp
      rw [hsplit]
      exact List.getLast?_concat _
    · rw [broadcastEvents_streamActions_err]
      simp [List.filter_append, no_streamEnd_in_fragments, List.filter_cons, isStreamEnd]
    · intro hcontra
      injection hcontra with h1 h2
      subst h1
      subst h2
      exact ⟨savesOf_streamActions_err _ _, broadcastEvents_streamActions_err _ _⟩

/-- Witness for C1: a backend failure before any fragment persists
nothing and broadcasts exactly the error fragment then `stream_end`. -/
theorem generate_always_terminates_stream_witness :
    savesOf
        [Action.broadcastEv (Event.fragment (errorChunk "boom")),
         Action.broadcastEv Event.streamEnd] = []
    ∧ broadcastEvents
        [Action.broadcastEv (Event.fragment (errorChunk "boom")),
         Action.broadcastEv Event.streamEnd]
        = [Event.fragment (errorChunk "boom"), Event.streamEnd] := by
  have t := generate_always_terminates_stream FetchResult.transportError (Json.str "hi")
    (StreamOutcome.err [] "boom") [{ role := GRole.user, text := Json.str "hi" }]
    [Action.broadcastEv (Event.fragment (errorChunk "boom")),
     Action.broadcastEv Event.streamEnd] [] "boom" rfl
  obtain ⟨-, -, -, himp⟩ := t
  obtain ⟨hs, hb⟩ := himp rfl
  refine ⟨hs, ?_⟩
  simpa [keptTexts] using hb

/-- C1 counterexample: when the history store returns `[1]` (a list
with a non-dict record), `generate_ai_response` raises `AttributeError`
at `msg.get("role")`, and when it returns
`[{"role": "user", "content": 5}]` (all dict records), it raises
pydantic `ValidationError` in `Part.from_text`; both happen in step 2,
before the streaming `try` block, so nothing at all is broadcast — the
event sequence is empty and does not end with `stream_end`. -/
theorem generate_crashes_on_non_dict_record :
    generate_ai_response
        (FetchResult.status 200 (BodyResult.json (Json.arr [Json.num 1])))
        (Json.str "hi") (StreamOutcome.ok [some "Hel"]) = none
    ∧ generate_ai_response
        (FetchResult.status 200 (BodyResult.json
          (Json.arr [Json.obj [("role", Json.str "user"), ("content", Json.num 5)]])))
        (Json.str "hi") (StreamOutcome.ok [some "Hel"]) = none :=
  ⟨rfl, rfl⟩

/-- C2 (amended): a send failure on one connection does not abort
delivery to the remaining connections in the same broadcast call — every
non-failing registered connection receives the event — but `broadcast`
returns the registry unchanged: the failing connection is not removed
by the broadcast call itself (only `disconnect` removes it). -/
theorem broadcast_skips_failure_keeps_registry (conns : List Conn) (e : Event) (c : Conn)
    (hc : c ∈ conns) (hf : c.failing = false) :
    (c.id, e) ∈ (ConnectionManager.broadcast conns e).1
    ∧ (ConnectionManager.broadcast conns e).2 = conns :=
  ⟨broadcastLoop_mem conns e c hc hf, rfl⟩

/-- Witness for C2: with a failing connection 0 ahead of it in the
registry, connection 1 is still delivered to, and the registry is
returned as it was. -/
theorem broadcast_skips_failure_keeps_registry_witness :
    (1, Event.clear) ∈ (ConnectionManager.broadcast [⟨0, true⟩, ⟨1, false⟩] Event.clear).1
    ∧ (ConnectionManager.broadcast [⟨0, true⟩, ⟨1, false⟩] Event.clear).2
        = [⟨0, true⟩, ⟨1, false⟩] :=
  broadcast_skips_failure_keeps_registry [⟨0, true⟩, ⟨1, false⟩] Event.clear
    ⟨1, false⟩ (by decide) rfl

/-- C2 counterexample: over the registry `[⟨0, failing⟩, ⟨1, ok⟩]` the
broadcast delivers to connection 1 but connection 0 is still in the
registry afterwards — `broadcast` never prunes (the `except: pass`
swallows the failure and the method does not touch
`active_connections`), refuting "the failing connection is removed from
the registry afterward". -/
theorem broadcast_does_not_prune_failing :
    (ConnectionManager.broadcast [⟨0, true⟩, ⟨1, false⟩] Event.clear).1
      = [(1, Event.clear)]
    ∧ (⟨0, true⟩ : Conn) ∈ (ConnectionManager.broadcast [⟨0, true⟩, ⟨1, false⟩] Event.clear).2 :=
  ⟨rfl, List.mem_cons_self _ _⟩

/-- C3 (amended): the pre-generation history fetch never raises; a
transport error, a non-200 status, or an empty/malformed body yields
the empty list, a bare JSON list is returned as is (its elements are
not validated), a JSON object yields whatever value sits under its
`history` field (empty list if absent) even when that value is not a
list of records, and any scalar JSON payload yields the empty list. -/
theorem fetch_history_normalization (code : Nat) (b : BodyResult) (v : Json)
    (xs : List Json) (fields : List (String × Json)) :
    fetchRawHistory FetchResult.transportError = Json.arr []
    ∧ (code ≠ 200 → fetchRawHistory (FetchResult.status code b) = Json.arr [])
    ∧ fetchRawHistory (FetchResult.status 200 BodyResult.invalid) = Json.arr []
    ∧ fetchRawHistory (FetchResult.status 200 (BodyResult.json (Json.arr xs))) = Json.arr xs
    ∧ fetchRawHistory (FetchResult.status 200 (BodyResult.json (Json.obj fields)))
        = dictGetD fields "history" (Json.arr [])
    ∧ (isScalar v = true →
        fetchRawHistory (FetchResult.status 200 (BodyResult.json v)) = Json.arr []) := by
  refine ⟨rfl, ?_, rfl, rfl, rfl, ?_⟩
  · intro hc
    simp [fetchRawHistory, hc]
  · intro hv
    cases v <;> simp_all [fetchRawHistory, parse_worker_history, isScalar]

/-- Witness for C3: a 404 response and a JSON `null` body both yield
the empty history. -/
theorem fetch_history_normalization_witness :
    fetchRawHistory (FetchResult.status 404 BodyResult.invalid) = Json.arr []
    ∧ fetchRawHistory (FetchResult.status 200 (BodyResult.json Json.null)) = Json.arr [] :=
  ⟨(fetch_history_normalization 404 BodyResult.invalid Json.null [] []).2.1 (by decide),
   (fetch_history_normalization 404 BodyResult.invalid Json.null [] []).2.2.2.2.2 rfl⟩

/-- C3 counterexample: the payload `{"history": 5}` is neither a bare
list of records nor an object carrying such a list under `history`, yet
the fetch yields `5` — `parse_worker_history` passes the `history`
value through unvalidated — not the empty record sequence the claim
requires. -/
theorem fetch_history_passes_through_non_list :
    fetchRawHistory
        (FetchResult.status 200 (BodyResult.json (Json.obj [("history", Json.num 5)])))
      = Json.num 5
    ∧ Json.num 5 ≠ Json.arr [] :=
  ⟨rfl, fun h => Json.noConfusion h⟩

/-- C4: on a successfully completed generation the action log is the
fragments broadcast one by one (each event carrying that fragment
alone), then a single append of the concatenation as one assistant
message, then the single `stream_end` broadcast; and any non-failing
connection in the registry — whatever else the registry holds —
receives exactly the N fragment events in emission order followed by
the one `stream_end`. -/
theorem generate_success_stream_order (fetch : FetchResult) (uc : Json)
    (frags : List String) (cs : List GContent) (acts : List Action)
    (conns : List Conn) (c : Conn)
    (h : generate_ai_response fetch uc (StreamOutcome.ok (frags.map some)) = some (cs, acts))
    (hne : ∀ f ∈ frags, f ≠ "")
    (hc : c ∈ conns) (hf : c.failing = false) :
    acts = frags.map (fun f => Action.broadcastEv (Event.fragment f))
        ++ [Action.save "assistant" (Json.str (concatStr frags)),
            Action.broadcastEv Event.streamEnd]
    ∧ receivedBy conns (broadcastEvents acts) c.id
        = frags.map Event.fragment ++ [Event.streamEnd] := by
  obtain ⟨hacts, -⟩ := generate_some_parts _ _ _ _ _ h
  subst hacts
  have hk := keptTexts_map_some frags hne
  constructor
  · simp [streamActions, streamStep_eq, hk, List.map_map, Function.comp]
  · rw [receivedBy_of_mem conns _ c hc hf, broadcastEvents_streamActions_ok, hk]

/-- Witness for C4: fragments "Hel", "lo" with two viewers connected,
one of them failing. -/
theorem generate_success_stream_order_witness :
    ([Action.broadcastEv (Event.fragment "Hel"), Action.broadcastEv (Event.fragment "lo"),
      Action.save "assistant" (Json.str "Hello"), Action.broadcastEv Event.streamEnd]
      = ["Hel", "lo"].map (fun f => Action.broadcastEv (Event.fragment f))
        ++ [Action.save "assistant" (Json.str (concatStr ["Hel", "lo"])),
            Action.broadcastEv Event.streamEnd])
    ∧ receivedBy [⟨0, true⟩, ⟨1, false⟩]
        (broadcastEvents
          [Action.broadcastEv (Event.fragment "Hel"), Action.broadcastEv (Event.fragment "lo"),
           Action.save "assistant" (Json.str "Hello"), Action.broadcastEv Event.streamEnd]) 1
        = ["Hel", "lo"].map Event.fragment ++ [Event.streamEnd] :=
  generate_success_stream_order FetchResult.transportError (Json.str "q") ["Hel", "lo"]
    [{ role := GRole.user, text := Json.str "q" }]
    [Action.broadcastEv (Event.fragment "Hel"), Action.broadcastEv (Event.fragment "lo"),
     Action.save "assistant" (Json.str "Hello"), Action.broadcastEv Event.streamEnd]
    [⟨0, true⟩, ⟨1, false⟩] ⟨1, false⟩ rfl (by decide) (by decide) rfl

theorem savesOf_genActions_user_free (fetch : FetchResult) (uc : Json)
    (st : StreamOutcome) :
    (savesOf (genActions fetch uc st)).filter (fun p => p.1 == "user") = [] := by
  cases hg : generate_ai_response fetch uc st with
  | none => simp [genActions, hg, savesOf]
  | some pr =>
    have h2 : generate_ai_response fetch uc st = some (pr.1, pr.2) := hg
    obtain ⟨hacts, -⟩ := generate_some_parts fetch uc st pr.1 pr.2 h2
    cases st with
    | ok chunks =>
      simp [genActions, hg, hacts, savesOf_streamActions_ok]
    | err chunks emsg =>
      simp [genActions, hg, hacts, savesOf_streamActions_err]

/-- C5: for an accepted submit-message request whose payload carries
content `c`, the very first action of the handler is the user-message
broadcast carrying `c` — so it precedes the background persistence and
all generation actions — and across the whole request exactly one
history-store append with role `"user"` is issued, carrying `c`. -/
theorem chat_broadcast_then_single_user_append (payload : List (String × Json))
    (fetch : FetchResult) (st : StreamOutcome) (c : Json)
    (h : dictGet payload "content" = some c) :
    (chat_endpoint payload fetch st).head?
        = some (Action.broadcastEv (Event.userMsg c))
    ∧ (savesOf (chat_endpoint payload fetch st)).filter (fun p => p.1 == "user")
        = [("user", c)] := by
  have huc : dictGetD payload "content" (Json.str "") = c := by simp [dictGetD, h]
  constructor
  · simp [chat_endpoint, huc]
  · simp [chat_endpoint, huc, savesOf, List.filter_cons,
      savesOf_genActions_user_free fetch c st]

/-- Witness for C5 at payload `{"content": "hi"}`. -/
theorem chat_broadcast_then_single_user_append_witness :
    (chat_endpoint [("content", Json.str "hi")] FetchResult.transportError
        (StreamOutcome.ok [])).head?
        = some (Action.broadcastEv (Event.userMsg (Json.str "hi")))
    ∧ (savesOf (chat_endpoint [("content", Json.str "hi")] FetchResult.transportError
        (StreamOutcome.ok []))).filter (fun p => p.1 == "user")
        = [("user", Json.str "hi")] :=
  chat_broadcast_then_single_user_append [("content", Json.str "hi")]
    FetchResult.transportError (StreamOutcome.ok []) (Json.str "hi") rfl

/-- C6: a reset whose DELETE against the store succeeds leaves the
store empty — a subsequent fetch yields the empty history — and
broadcasts exactly one `clear` event, which every non-failing connected
viewer receives exactly once. -/
theorem reset_clears_and_broadcasts_clear (store : List Json) (conns : List Conn)
    (c : Conn) (hc : c ∈ conns) (hf : c.failing = false) :
    (reset_history store true).1 = []
    ∧ fetchRawHistory (storeResponse (reset_history store true).1) = Json.arr []
    ∧ (reset_history store true).2 = [Event.clear]
    ∧ receivedBy conns (reset_history store true).2 c.id = [Event.clear] :=
  ⟨rfl, rfl, rfl, receivedBy_of_mem conns [Event.clear] c hc hf⟩

/-- Witness for C6 with one stored record and one healthy viewer. -/
theorem reset_clears_and_broadcasts_clear_witness :
    (reset_history [Json.obj []] true).1 = []
    ∧ fetchRawHistory (storeResponse (reset_history [Json.obj []] true).1) = Json.arr []
    ∧ (reset_history [Json.obj []] true).2 = [Event.clear]
    ∧ receivedBy [⟨0, false⟩] (reset_history [Json.obj []] true).2 0 = [Event.clear] :=
  reset_clears_and_broadcasts_clear [Json.obj []] [⟨0, false⟩] ⟨0, false⟩
    (by decide) rfl

/-- C7: a new viewer connecting while the store holds `k` dict records
receives exactly the `k` corresponding full-type events in history
order; nothing is broadcast to the already-connected viewers; inbound
traffic is discarded (the result is independent of it); and at
disconnect the viewer is unregistered, leaving the registry as it
was. -/
theorem websocket_replays_history_to_new_viewer (registry : List Conn) (viewer : Conn)
    (records : List Json) (inbound inbound2 : List String)
    (h1 : ∀ r ∈ records, isDict r = true)
    (h2 : ∀ d ∈ registry, d.id ≠ viewer.id) :
    (websocket_endpoint registry viewer (storeResponse records) inbound).sentToViewer
        = records.map asFullEvent
    ∧ (websocket_endpoint registry viewer (storeResponse records) inbound).sentToViewer.length
        = records.length
    ∧ (websocket_endpoint registry viewer (storeResponse records) inbound).broadcasts = []
    ∧ (websocket_endpoint registry viewer (storeResponse records) inbound).registryAfter
        = registry
    ∧ websocket_endpoint registry viewer (storeResponse records) inbound2
        = websocket_endpoint registry viewer (storeResponse records) inbound := by
  have hsent :
      (websocket_endpoint registry viewer (storeResponse records) inbound).sentToViewer
        = records.map asFullEvent :=
    replayEvents_eq_map records h1
  refine ⟨hsent, ?_, rfl, ?_, rfl⟩
  · rw [hsent]
    simp
  · exact removeFirst_append_of_fresh registry viewer h2

/-- Witness for C7: history `[{user,"a"},{assistant,"b"}]`, one prior
viewer, arbitrary inbound text. -/
theorem websocket_replays_history_to_new_viewer_witness :
    (websocket_endpoint [⟨0, false⟩] ⟨1, false⟩
        (storeResponse
          [Json.obj [("role", Json.str "user"), ("content", Json.str "a")],
           Json.obj [("role", Json.str "assistant"), ("content", Json.str "b")]])
        ["ignored"]).sentToViewer
        = [Json.obj [("role", Json.str "user"), ("content", Json.str "a")],
           Json.obj [("role", Json.str "assistant"), ("content", Json.str "b")]].map asFullEvent
    ∧ (websocket_endpoint [⟨0, false⟩] ⟨1, false⟩
        (storeResponse
          [Json.obj [("role", Json.str "user"), ("content", Json.str "a")],
           Json.obj [("role", Json.str "assistant"), ("content", Json.str "b")]])
        ["ignored"]).sentToViewer.length
        = [Json.obj [("role", Json.str "user"), ("content", Json.str "a")],
           Json.obj [("role", Json.str "assistant"), ("content", Json.str "b")]].length
    ∧ (websocket_endpoint [⟨0, false⟩] ⟨1, false⟩
        (storeResponse
          [Json.obj [("role", Json.str "user"), ("content", Json.str "a")],
           Json.obj [("role", Json.str "assistant"), ("content", Json.str "b")]])
        ["ignored"]).broadcasts = []
    ∧ (websocket_endpoint [⟨0, false⟩] ⟨1, false⟩
        (storeResponse
          [Json.obj [("role", Json.str "user"), ("content", Json.str "a")],
           Json.obj [("role", Json.str "assistant"), ("content", Json.str "b")]])
        ["ignored"]).registryAfter = [⟨0, false⟩]
    ∧ websocket_endpoint [⟨0, false⟩] ⟨1, false⟩
        (storeResponse
          [Json.obj [("role", Json.str "user"), ("content", Json.str "a")],
           Json.obj [("role", Json.str "assistant"), ("content", Json.str "b")]])
        []
        = websocket_endpoint [⟨0, false⟩] ⟨1, false⟩
            (storeResponse
              [Json.obj [("role", Json.str "user"), ("content", Json.str "a")],
               Json.obj [("role", Json.str "assistant"), ("content", Json.str "b")]])
            ["ignored"] :=
  websocket_replays_history_to_new_viewer [⟨0, false⟩] ⟨1, false⟩
    [Json.obj [("role", Json.str "user"), ("content", Json.str "a")],
     Json.obj [("role", Json.str "assistant"), ("content", Json.str "b")]]
    ["ignored"] [] (by decide) (by decide)

theorem recordContent_role_iff (fields : List (String × Json)) :
    (recordContent fields).role = GRole.model ↔
      dictGet fields "role" = some (Json.str "assistant")
      ∨ dictGet fields "role" = some (Json.str "model") := by
  cases hr : dictGet fields "role" with
  | none => simp [recordContent, hr]
  | some v =>
    cases v with
    | str s =>
      by_cases hcond : s = "assistant" ∨ s = "model"
      · simp [recordContent, hr, hcond]
      · simp [recordContent, hr, hcond]
    | null => simp [recordContent, hr]
    | bool b => simp [recordContent, hr]
    | num n => simp [recordContent, hr]
    | arr xs => simp [recordContent, hr]
    | obj kvs => simp [recordContent, hr]

/-- C8 (amended): in the assembled generation context a record's
missing content is coerced to empty text and exactly the roles
`assistant` and `model` map to a model turn (anything else, a missing
role included, is a human turn), with the submitted content appended as
the final human turn; but a record replayed to a connecting viewer is
forwarded with its `role` and `content` values verbatim — a missing
field is sent as JSON `null`, with no coercion applied. -/
theorem context_coercion_and_replay_verbatim (fields : List (String × Json)) (uc : Json)
    (fetch : FetchResult) (st : StreamOutcome) (cs : List GContent) (acts : List Action)
    (hmiss : dictGet fields "content" = none)
    (h : generate_ai_response fetch uc st = some (cs, acts)) :
    (recordContent fields).text = Json.str ""
    ∧ ((recordContent fields).role = GRole.model ↔
        dictGet fields "role" = some (Json.str "assistant")
        ∨ dictGet fields "role" = some (Json.str "model"))
    ∧ cs.getLast? = some { role := GRole.user, text := uc }
    ∧ replayEvents [Json.obj fields]
        = [Event.full (dictGetD fields "role" Json.null)
            (dictGetD fields "content" Json.null)] := by
  obtain ⟨-, cs0, hcs⟩ := generate_some_parts fetch uc st cs acts h
  refine ⟨?_, recordContent_role_iff fields, ?_, rfl⟩
  · simp [recordContent, dictGetD, hmiss]
  · rw [hcs]
    exact List.getLast?_concat _

/-- Witness for C8: record `{"role": "model"}` (no content) and
submitted content `"x"`. -/
theorem context_coercion_and_replay_verbatim_witness :
    (recordContent [("role", Json.str "model")]).text = Json.str ""
    ∧ ((recordContent [("role", Json.str "model")]).role = GRole.model ↔
        dictGet [("role", Json.str "model")] "role" = some (Json.str "assistant")
        ∨ dictGet [("role", Json.str "model")] "role" = some (Json.str "model"))
    ∧ ([{ role := GRole.user, text := Json.str "x" }] : List GContent).getLast?
        = some { role := GRole.user, text := Json.str "x" }
    ∧ replayEvents [Json.obj [("role", Json.str "model")]]
        = [Event.full (dictGetD [("role", Json.str "model")] "role" Json.null)
            (dictGetD [("role", Json.str "model")] "content" Json.null)] :=
  context_coercion_and_replay_verbatim [("role", Json.str "model")] (Json.str "x")
    FetchResult.transportError (StreamOutcome.ok [])
    [{ role := GRole.user, text := Json.str "x" }]
    [Action.save "assistant" (Json.str ""), Action.broadcastEv Event.streamEnd]
    rfl rfl

/-- C8 counterexample: replaying the history record `{}` (no role, no
content) sends `{"role": null, "content": null, "type": "full"}` to the
connecting viewer — the missing content is forwarded as JSON `null`,
not coerced to empty text, and the missing role is forwarded as `null`,
not treated as a user turn, refuting the claim for records replayed to
a connecting viewer. -/
theorem replay_does_not_coerce_missing_fields :
    wsHistoryEvents (storeResponse [Json.obj []]) = [Event.full Json.null Json.null]
    ∧ Json.null ≠ Json.str "" :=
  ⟨rfl, fun h => Json.noConfusion h⟩

theorem keptTexts_ne_empty (chunks : List (Option String)) (u : String)
    (hu : u ∈ keptTexts chunks) : u ≠ "" := by
  induction chunks with
  | nil => cases hu
  | cons c rest ih =>
    cases c with
    | none => exact ih (by simpa [keptTexts] using hu)
    | some t =>
      by_cases ht : t = ""
      · exact ih (by simpa [keptTexts, ht] using hu)
      · rw [keptTexts, if_neg ht] at hu
        rcases List.mem_cons.mp hu with h | h
        · exact h ▸ ht
        · exact ih h

/-- C9: a produced chunk whose text is absent or empty is neither
broadcast nor appended to the accumulator: every fragment event in the
broadcast log of a generation carries non-empty text (the error
fragment included), and on a completed stream the persisted assistant
message is the concatenation of exactly the present, non-empty chunk
texts. -/
theorem stream_fragments_nonempty (fetch : FetchResult) (uc : Json) (st : StreamOutcome)
    (cs : List GContent) (acts : List Action) (t : String)
    (chunks : List (Option String))
    (h : generate_ai_response fetch uc st = some (cs, acts))
    (hmem : Event.fragment t ∈ broadcastEvents acts) :
    t ≠ ""
    ∧ (st = StreamOutcome.ok chunks →
        savesOf acts = [("assistant", Json.str (concatStr (keptTexts chunks)))]) := by
  obtain ⟨hacts, -⟩ := generate_some_parts _ _ _ _ _ h
  subst hacts
  constructor
  · cases st with
    | ok ch =>
      rw [broadcastEvents_streamActions_ok] at hmem
      rcases List.mem_append.mp hmem with hm | hm
      · obtain ⟨u, hu, he⟩ := List.mem_map.mp hm
        injection he with hut
        exact hut ▸ keptTexts_ne_empty ch u hu
      · simp at hm
    | err ch em =>
      rw [broadcastEvents_streamActions_err] at hmem
      rcases List.mem_append.mp hmem with hm | hm
      · obtain ⟨u, hu, he⟩ := List.mem_map.mp hm
        injection he with hut
        exact hut ▸ keptTexts_ne_empty ch u hu
      · simp at hm
        exact hm ▸ errorChunk_ne_empty em
  · intro hok
    subst hok
    exact savesOf_streamActions_ok chunks

/-- Witness for C9: the stream `["Hel", None, "", "lo"]` broadcasts
only "Hel" and "lo" and persists "Hello". -/
theorem stream_fragments_nonempty_witness :
    "Hel" ≠ ""
    ∧ savesOf
        [Action.broadcastEv (Event.fragment "Hel"), Action.broadcastEv (Event.fragment "lo"),
         Action.save "assistant" (Json.str "Hello"), Action.broadcastEv Event.streamEnd]
        = [("assistant",
            Json.str (concatStr (keptTexts [some "Hel", none, some "", some "lo"])))] := by
  have t := stream_fragments_nonempty FetchResult.transportError (Json.str "q")
    (StreamOutcome.ok [some "Hel", none, some "", some "lo"])
    [{ role := GRole.user, text := Json.str "q" }]
    [Action.broadcastEv (Event.fragment "Hel"), Action.broadcastEv (Event.fragment "lo"),
     Action.save "assistant" (Json.str "Hello"), Action.broadcastEv Event.streamEnd]
    "Hel" [some "Hel", none, some "", some "lo"] rfl (List.mem_cons_self _ _)
  exact ⟨t.1, t.2 rfl⟩

/-- C10: during history replay, a record that is not a dict is skipped
without sending anything for it, and replay continues with the
remaining records — the event sequence equals that of the list with the
record removed, and the (total) replay function never fails. -/
theorem replay_skips_non_dict_records (pre post : List Json) (x : Json)
    (hx : isDict x = false) :
    replayEvents (pre ++ x :: post) = replayEvents (pre ++ post) := by
  induction pre with
  | nil =>
    cases x with
    | obj fields => simp [isDict] at hx
    | null => rfl
    | bool b => rfl
    | num n => rfl
    | str s => rfl
    | arr xs => rfl
  | cons r rest ih =>
    cases r with
    | obj fields => simp [List.cons_append, replayEvents, ih]
    | null => simpa only [List.cons_append, replayEvents] using ih
    | bool b => simpa only [List.cons_append, replayEvents] using ih
    | num n => simpa only [List.cons_append, replayEvents] using ih
    | str s => simpa only [List.cons_append, replayEvents] using ih
    | arr xs => simpa only [List.cons_append, replayEvents] using ih

/-- Witness for C10: the number 7 between two dict records is skipped. -/
theorem replay_skips_non_dict_records_witness :
    replayEvents [Json.obj [], Json.num 7, Json.obj [("role", Json.str "user")]]
      = replayEvents [Json.obj [], Json.obj [("role", Json.str "user")]] :=
  replay_skips_non_dict_records [Json.obj []] [Json.obj [("role", Json.str "user")]]
    (Json.num 7) rfl

end Mvpgpt
